import Mathlib

/-!
Verification of the HandyWriterz orchestration core and API route handlers.

The repository's documentation describes a multi-agent workflow engine
(research fan-out, source filter, generation loop, plagiarism loop,
orchestrator) whose node implementations are not present in the source
tree; those components are modelled here from the specification text.
The Postgres schema (`scripts/init_db.sql`) and the Next.js route
handlers (`web/app/api/upload/route.ts` and the write route) are present
in the source and are embedded directly.

Scores that the schema stores as REAL columns are modelled as rationals.
-/

namespace HandyWriterz

/-! ## Request status (spec §3, schema `conversations.status`) -/

inductive RequestStatus
  | pending
  | running
  | awaiting_payment
  | succeeded
  | failed
deriving DecidableEq, Repr

/-- Modelled from the spec: position of each status along the monotonic chain
pending → running → {succeeded | failed}; `awaiting_payment` gates admission
between `pending` and `running`; the two terminal statuses share the top rank. -/
def statusRank : RequestStatus → Nat
  | .pending => 0
  | .awaiting_payment => 1
  | .running => 2
  | .succeeded => 3
  | .failed => 3

/-- Modelled from the spec: the allowed status transitions of a Request,
"status transitions are monotonic along {pending→running→{succeeded|failed}}". -/
inductive StatusStep : RequestStatus → RequestStatus → Prop
  | start : StatusStep .pending .running
  | finishOk : StatusStep .running .succeeded
  | finishErr : StatusStep .running .failed

/-! ## Plagiarism reports (spec §3, schema `turnitin_reports`) -/

inductive ReportStatus
  | pending
  | processing
  | completed
  | failed
deriving DecidableEq, Repr

structure PlagiarismReport where
  similarity_score : ℚ
  ai_score : ℚ
  status : ReportStatus
deriving DecidableEq, Repr

/-- Modelled from the spec: a Draft is "clean" iff its completed report has
similarity_score ≤ the configured threshold and ai_score = 0. -/
def isClean (threshold : ℚ) (r : PlagiarismReport) : Prop :=
  r.status = ReportStatus.completed ∧ r.similarity_score ≤ threshold ∧ r.ai_score = 0

instance (threshold : ℚ) (r : PlagiarismReport) : Decidable (isClean threshold r) := by
  unfold isClean
  infer_instance

/-- Embeds the `turnitin_passed` column of the `conversation_stats` view in
`scripts/init_db.sql`: over the reports joined with status `completed`, the
count of rows with `similarity_score <= 10 AND ai_score = 0` is positive. -/
def turnitinPassed (reports : List PlagiarismReport) : Bool :=
  0 < (reports.filter (fun r => decide (r.status = ReportStatus.completed))).countP
    (fun r => decide (r.similarity_score ≤ 10) && decide (r.ai_score = 0))

/-- Modelled from the spec: states of the Plagiarism Loop (TurnitinLoop). -/
inductive PlagState
  | Submitted
  | Polling
  | Clean
  | NeedsRevision
  | Exhausted
deriving DecidableEq, Repr

/-- Modelled from the spec: the Polling transition on receipt of a report.
Polling → Clean when a completed report meets the clean criteria,
Polling → NeedsRevision when a completed report fails them, and the loop
keeps Polling while the report is still pending or processing. -/
def pollTransition (threshold : ℚ) (r : PlagiarismReport) : PlagState :=
  if r.status = ReportStatus.completed then
    if isClean threshold r then PlagState.Clean else PlagState.NeedsRevision
  else PlagState.Polling

/-- Outcome of a full Plagiarism Loop run: `Clean k` records the attempt index
that produced a clean report, `Exhausted` means the attempt budget ran out,
`FatalFail` means a report came back with status `failed`. -/
inductive PlagOutcome
  | Clean (attempt : Nat)
  | Exhausted
  | FatalFail
deriving DecidableEq, Repr

/-- Modelled from the spec: one submit → poll → revise cycle per attempt.
`provider k` abstracts the final report obtained for attempt `k` after the
bounded polling wait. A clean report ends the loop successfully; a `failed`
report is fatal; otherwise the draft is revised and resubmitted until the
remaining-attempt budget (the fuel argument) runs out, which yields
`Exhausted`. -/
def plagLoopRun (threshold : ℚ) (provider : Nat → PlagiarismReport)
    (attempt : Nat) : Nat → PlagOutcome
  | 0 => PlagOutcome.Exhausted
  | fuel + 1 =>
    let r := provider attempt
    if r.status = ReportStatus.failed then PlagOutcome.FatalFail
    else if isClean threshold r then PlagOutcome.Clean attempt
    else plagLoopRun threshold provider (attempt + 1) fuel

/-- Modelled from the spec: the Plagiarism Loop bounded by `maxAttempts`
submit/revise cycles, attempts numbered from 0. -/
def plagiarismLoop (threshold : ℚ) (provider : Nat → PlagiarismReport)
    (maxAttempts : Nat) : PlagOutcome :=
  plagLoopRun threshold provider 0 maxAttempts

/-- Terminal outcome of a Request run together with its warning annotation. -/
structure RunResult where
  status : RequestStatus
  warning : Bool
deriving DecidableEq, Repr

/-- Modelled from the spec: `PlagiarismExhausted` is a degraded success, not a
failure — the run proceeds to the Formatter with a warning annotation; only a
fatally failed report check fails the Request. -/
def finishAfterPlagiarism : PlagOutcome → RunResult
  | PlagOutcome.Clean _ => { status := RequestStatus.succeeded, warning := false }
  | PlagOutcome.Exhausted => { status := RequestStatus.succeeded, warning := true }
  | PlagOutcome.FatalFail => { status := RequestStatus.failed, warning := false }

/-! ## Generation Loop (spec §4.3) -/

/-- Final state of the Generation Loop: the revision budget either produced an
accepted draft or was exhausted. -/
inductive GenOutcome
  | Accepted
  | Exhausted
deriving DecidableEq, Repr

/-- Modelled from the spec: the Drafting ⇄ Evaluating cycle. `evalScore i` is
the aggregated quality score of the draft produced in cycle `i` (cycles are
numbered from 1); `done` counts completed cycles and the fuel argument counts
cycles still allowed. A score at or above the threshold is accepted (ties
count as acceptance); otherwise the loop revises while budget remains and
reports `Exhausted`, with the cycle count, when it runs out. -/
def genLoopGo (evalScore : Nat → ℚ) (threshold : ℚ) : Nat → Nat → GenOutcome × Nat
  | 0, done => (GenOutcome.Exhausted, done)
  | fuel + 1, done =>
    if threshold ≤ evalScore (done + 1) then (GenOutcome.Accepted, done + 1)
    else genLoopGo evalScore threshold fuel (done + 1)

/-- Modelled from the spec: the Generation Loop bounded by `maxIter`
Drafting/Evaluating cycles; returns the outcome and the number of cycles run. -/
def generationLoop (evalScore : Nat → ℚ) (threshold : ℚ) (maxIter : Nat) :
    GenOutcome × Nat :=
  genLoopGo evalScore threshold maxIter 0

/-! ## Sources, merge, Research Fan-out, Source Filter
(spec §3 `Source`, §4.5, §4.6; schema `sources`) -/

structure Source where
  url : String
  title : String
  author : String
  year : Option Int
  abstract : Option String
  doi : Option String
  citation : Option String
  provider : String
  credibility_score : ℚ
  relevance_score : ℚ
  verified : Bool
deriving DecidableEq, Repr

/-- Modelled from the spec: the canonical URL/DOI identity used for
deduplication — the DOI when one is present, the URL otherwise. -/
def canonicalKey (s : Source) : String :=
  match s.doi with
  | some d => d
  | none => s.url

/-- Of two sources with the same canonical key, keep the one with the higher
relevance_score (the first argument wins ties). -/
def bestSource (s t : Source) : Source :=
  if t.relevance_score ≤ s.relevance_score then s else t

/-- The source with canonical key `k` of maximal relevance_score in the list,
if any source with that key exists. -/
def bestForKey (k : String) : List Source → Option Source
  | [] => none
  | s :: rest =>
    if canonicalKey s = k then
      match bestForKey k rest with
      | none => some s
      | some t => some (bestSource s t)
    else bestForKey k rest

/-- Modelled from the spec: merge by union, coalescing duplicate sources (same
canonical URL/DOI) into one source keeping the highest relevance_score
observed. One output entry per distinct canonical key of the input. -/
def mergeSources (ls : List Source) : List Source :=
  ((ls.map canonicalKey).dedup).filterMap (fun k => bestForKey k ls)

/-- Result of one pipeline stage, per the node contract of spec §4.1 (the
`Retry` variant is internal to a node's bounded retry policy and never escapes
a stage, so the stage-level result is `Continue` or `Fail`). -/
inductive NodeResult
  | Continue (sources : List Source)
  | Fail
deriving DecidableEq, Repr

/-- Modelled from the spec: a failed or timed-out provider contributes an
empty Source set; a successful one contributes its raw output. -/
def providerContribution : Option (List Source) → List Source
  | none => []
  | some found => found

/-- Modelled from the spec: Research Fan-out over the configured providers,
`none` standing for a provider that failed or timed out. The stage fails only
when every provider failed; otherwise it continues with the deduplicated merge
of all contributions. -/
def researchFanOut (results : List (Option (List Source))) : NodeResult :=
  if results.all Option.isNone then NodeResult.Fail
  else NodeResult.Continue (mergeSources (results.map providerContribution).flatten)

/-- Configuration of the Source Filter: minimum credibility, the age window in
years, and the current year against which source ages are measured. -/
structure FilterConfig where
  min_credibility : ℚ
  source_age_limit_years : Nat
  current_year : Int
deriving DecidableEq, Repr

/-- Modelled from the spec: keep a source iff its credibility_score meets the
minimum and, when a publication year is known, the year lies within the
configured `source_age_limit_years` window. -/
def passesFilter (cfg : FilterConfig) (s : Source) : Bool :=
  decide (cfg.min_credibility ≤ s.credibility_score) &&
    (match s.year with
     | none => true
     | some y => decide (cfg.current_year - (cfg.source_age_limit_years : Int) ≤ y))

/-- Mark a source as verified; only the Source Filter sets this flag. -/
def markVerified (s : Source) : Source :=
  { s with verified := true }

/-- Modelled from the spec: the Source Filter — a deterministic pass that
discards sources below the minimum credibility or outside the age window and
marks the remaining sources `verified = true`. -/
def sourceFilter (cfg : FilterConfig) (ls : List Source) : List Source :=
  (ls.filter (passesFilter cfg)).map markVerified

/-! ## Drafts and WorkflowState (spec §3; schema `drafts`) -/

structure Draft where
  version : Nat
  content : String
  word_count : Nat
  citation_count : Nat
  quality_score : Option ℚ
deriving DecidableEq, Repr

/-- Working memory of one Request's run (spec §3 `WorkflowState`); the fields
not needed by the verified operations are carried as data. -/
structure WorkflowState where
  outline : Option (List String)
  sources : List Source
  drafts : List Draft
  plagiarism_reports : List PlagiarismReport
deriving DecidableEq, Repr

/-- The fresh Draft a revision appends: version = current length + 1, quality
score unset until Evaluation aggregation. -/
def nextDraft (st : WorkflowState) (content : String)
    (wordCount citationCount : Nat) : Draft :=
  { version := st.drafts.length + 1
    content := content
    word_count := wordCount
    citation_count := citationCount
    quality_score := none }

/-- Modelled from the spec: drafting and revising both append a fresh Draft
whose version is the new position + 1; no existing entry is touched. -/
def appendDraft (st : WorkflowState) (content : String)
    (wordCount citationCount : Nat) : WorkflowState :=
  { st with drafts := st.drafts ++ [nextDraft st content wordCount citationCount] }

/-- The drafts sequence is well-versioned: the entry at position `i` carries
version `i + 1`, so versions are the strictly increasing run 1, 2, …, n. -/
def draftsVersionsOk (ds : List Draft) : Prop :=
  ∀ i d, ds[i]? = some d → d.version = i + 1

/-! ## Upload route handler (`web/app/api/upload/route.ts`)

File names are embedded as character lists so that the JavaScript string
operations (`split('.')`, `pop()`, `toLowerCase()`) translate to structurally
recursive functions. -/

/-- JavaScript `name.split('.')`: the list of dot-separated segments; a name
with no dot yields the single segment equal to the whole name, and the empty
name yields one empty segment. -/
def splitOnDot : List Char → List (List Char)
  | [] => [[]]
  | c :: rest =>
    match splitOnDot rest with
    | [] => [[]]
    | seg :: segs =>
      if c = '.' then [] :: seg :: segs else (c :: seg) :: segs

/-- JavaScript `.toLowerCase()` on a segment. -/
def lowerChars (cs : List Char) : List Char :=
  cs.map Char.toLower

/-- The extension the handler computes:
`'.' + file.name.split('.').pop()?.toLowerCase()` — a dot followed by the
lowercased final dot-separated segment of the name. -/
def fileExtension (name : List Char) : List Char :=
  '.' :: lowerChars ((splitOnDot name).getLastD [])

/-- The `allowedTypes` array of the handler. -/
def allowedTypes : List (List Char) :=
  [".pdf".data, ".docx".data, ".txt".data, ".md".data]

/-- The `maxSize` constant of the handler: 50 MB. -/
def maxUploadSize : Nat := 50 * 1024 * 1024

structure UploadFile where
  name : List Char
  size : Nat
deriving DecidableEq, Repr

/-- Outcome of the upload handler: an HTTP 400 rejection with its error
message, or forwarding the file to the backend. -/
inductive UploadOutcome
  | reject400 (msg : String)
  | forward
deriving DecidableEq, Repr

/-- The POST handler of `web/app/api/upload/route.ts`: reject with 400 when no
file is present, when the computed extension is not an allowed type, or when
the size exceeds 50 MB; otherwise forward the file to the backend. -/
def uploadHandler (file : Option UploadFile) : UploadOutcome :=
  match file with
  | none => UploadOutcome.reject400 "No file provided"
  | some f =>
    if ¬ (fileExtension f.name ∈ allowedTypes) then
      UploadOutcome.reject400 "Unsupported file type"
    else if maxUploadSize < f.size then
      UploadOutcome.reject400 "File too large. Maximum size is 50MB."
    else UploadOutcome.forward

/-- The claim's reading of the extension: the lowercased text after the last
dot of the name, there being no extension (the bare dot) when the name
contains no dot at all. -/
def claimFileExtension (name : List Char) : List Char :=
  if (splitOnDot name).length ≤ 1 then ['.']
  else '.' :: lowerChars ((splitOnDot name).getLastD [])

/-! ## Write route handler (the `api/write` proxy route) -/

/-- Request body of the write route: the `prompt` field (`none` when absent)
and the remaining fields, forwarded verbatim. -/
structure WriteBody where
  prompt : Option String
  rest : List (String × String)
deriving DecidableEq, Repr

/-- JavaScript truthiness of `body.prompt` for a string-or-absent field:
falsy iff absent or the empty string. -/
def promptTruthy : Option String → Bool
  | none => false
  | some p => !(p == "")

/-- The backend's reply to the proxied fetch: its HTTP status code and the
optional `detail` field of its JSON body. -/
structure BackendResponse where
  status : Nat
  detail : Option String
deriving DecidableEq, Repr

/-- `response.ok` of the fetch API: status in the range 200–299. -/
def responseOk (status : Nat) : Bool :=
  decide (200 ≤ status ∧ status < 300)

/-- JavaScript `data.detail || 'Backend request failed'`: the fallback is used
when `detail` is absent or falsy (the empty string). -/
def writeErrMsg (detail : Option String) : String :=
  match detail with
  | none => "Backend request failed"
  | some d => if d == "" then "Backend request failed" else d

/-- Outcome of the write handler: an HTTP 400 rejection without contacting the
backend, or a proxied response carrying the backend's status code and, for a
non-ok backend response, the mapped JSON error message. -/
inductive WriteOutcome
  | reject400 (msg : String)
  | proxied (status : Nat) (errorMsg : Option String)
deriving DecidableEq, Repr

/-- The POST handler of the write route: a body without a truthy `prompt`
is rejected with 400 and the message "Prompt is required" before any backend
call; otherwise the body is forwarded and a non-ok backend response is mapped
to a JSON error carrying the backend's status code. -/
def writeHandler (body : WriteBody) (backend : BackendResponse) : WriteOutcome :=
  if promptTruthy body.prompt then
    if responseOk backend.status then WriteOutcome.proxied backend.status none
    else WriteOutcome.proxied backend.status (some (writeErrMsg backend.detail))
  else WriteOutcome.reject400 "Prompt is required"

/-! ## Helper lemmas -/

lemma plagLoopRun_exhausted (threshold : ℚ) (provider : Nat → PlagiarismReport) :
    ∀ fuel start,
      (∀ k, k < fuel → (provider (start + k)).status = ReportStatus.completed ∧
        ¬ isClean threshold (provider (start + k))) →
      plagLoopRun threshold provider start fuel = PlagOutcome.Exhausted := by
  intro fuel
  induction fuel with
  | zero => intro start _; rfl
  | succ n ih =>
    intro start h
    have h0 := h 0 (Nat.succ_pos n)
    rw [Nat.add_zero] at h0
    have hnf : ¬ (provider start).status = ReportStatus.failed := by
      rw [h0.1]; intro hx; cases hx
    show (if (provider start).status = ReportStatus.failed then PlagOutcome.FatalFail
      else if isClean threshold (provider start) then PlagOutcome.Clean start
      else plagLoopRun threshold provider (start + 1) n) = PlagOutcome.Exhausted
    rw [if_neg hnf, if_neg h0.2]
    apply ih
    intro k hk
    have := h (k + 1) (Nat.succ_lt_succ hk)
    rwa [show start + (k + 1) = start + 1 + k by omega] at this

lemma genLoopGo_le (evalScore : Nat → ℚ) (threshold : ℚ) :
    ∀ fuel done, (genLoopGo evalScore threshold fuel done).2 ≤ done + fuel := by
  intro fuel
  induction fuel with
  | zero => intro done; exact Nat.le_refl done
  | succ n ih =>
    intro done
    show (if threshold ≤ evalScore (done + 1) then (GenOutcome.Accepted, done + 1)
      else genLoopGo evalScore threshold n (done + 1)).2 ≤ done + (n + 1)
    split
    · omega
    · have := ih (done + 1)
      omega

lemma genLoopGo_zero_eval (evalScore : Nat → ℚ) (threshold : ℚ)
    (hpos : 0 < threshold) (hzero : ∀ k, evalScore k = 0) :
    ∀ fuel done, genLoopGo evalScore threshold fuel done =
      (GenOutcome.Exhausted, done + fuel) := by
  intro fuel
  induction fuel with
  | zero => intro done; rfl
  | succ n ih =>
    intro done
    have hna : ¬ threshold ≤ evalScore (done + 1) := by
      rw [hzero (done + 1)]
      exact not_le_of_lt hpos
    show (if threshold ≤ evalScore (done + 1) then (GenOutcome.Accepted, done + 1)
      else genLoopGo evalScore threshold n (done + 1)) = (GenOutcome.Exhausted, done + (n + 1))
    rw [if_neg hna, ih (done + 1), show done + 1 + n = done + (n + 1) by omega]

lemma bestForKey_mem_key (k : String) :
    ∀ (ls : List Source) (t : Source), bestForKey k ls = some t →
      t ∈ ls ∧ canonicalKey t = k := by
  intro ls
  induction ls with
  | nil => intro t h; cases h
  | cons s rest ih =>
    intro t h
    unfold bestForKey at h
    by_cases hk : canonicalKey s = k
    · rw [if_pos hk] at h
      cases hbf : bestForKey k rest with
      | none =>
        rw [hbf] at h
        injection h with h'
        subst h'
        exact ⟨List.mem_cons_self s rest, hk⟩
      | some u =>
        rw [hbf] at h
        injection h with h'
        subst h'
        have hu := ih u hbf
        unfold bestSource
        split
        · exact ⟨List.mem_cons_self s rest, hk⟩
        · exact ⟨List.mem_cons_of_mem s hu.1, hu.2⟩
    · rw [if_neg hk] at h
      have ht := ih t h
      exact ⟨List.mem_cons_of_mem s ht.1, ht.2⟩

lemma bestForKey_exists (k : String) :
    ∀ (ls : List Source) (u : Source), u ∈ ls → canonicalKey u = k →
      ∃ t, bestForKey k ls = some t := by
  intro ls
  induction ls with
  | nil => intro u hu; cases hu
  | cons s rest ih =>
    intro u hu hk
    unfold bestForKey
    by_cases hks : canonicalKey s = k
    · rw [if_pos hks]
      cases hbf : bestForKey k rest with
      | none => exact ⟨s, rfl⟩
      | some t => exact ⟨bestSource s t, rfl⟩
    · rw [if_neg hks]
      cases List.mem_cons.mp hu with
      | inl he => rw [he] at hk; exact absurd hk hks
      | inr hm => exact ih u hm hk

lemma bestForKey_max (k : String) :
    ∀ (ls : List Source) (t : Source), bestForKey k ls = some t →
      ∀ u, u ∈ ls → canonicalKey u = k →
        u.relevance_score ≤ t.relevance_score := by
  intro ls
  induction ls with
  | nil => intro t h; cases h
  | cons s rest ih =>
    intro t h u hu hku
    unfold bestForKey at h
    by_cases hk : canonicalKey s = k
    · rw [if_pos hk] at h
      cases hbf : bestForKey k rest with
      | none =>
        rw [hbf] at h
        injection h with h'
        subst h'
        cases List.mem_cons.mp hu with
        | inl he => rw [he]
        | inr hm =>
          obtain ⟨t', ht'⟩ := bestForKey_exists k rest u hm hku
          rw [ht'] at hbf
          cases hbf
      | some v =>
        rw [hbf] at h
        injection h with h'
        subst h'
        have hv := ih v hbf
        cases List.mem_cons.mp hu with
        | inl he =>
          rw [he]
          unfold bestSource
          split
          · exact le_refl _
          · rename_i hlt
            exact le_of_lt (lt_of_not_le hlt)
        | inr hm =>
          have humax := hv u hm hku
          unfold bestSource
          split
          · rename_i hle
            exact humax.trans hle
          · exact humax
    · rw [if_neg hk] at h
      cases List.mem_cons.mp hu with
      | inl he => rw [he] at hku; exact absurd hku hk
      | inr hm => exact ih t h u hm hku

lemma mem_mergeSources (ls : List Source) (t : Source) (ht : t ∈ mergeSources ls) :
    t ∈ ls ∧ ∀ u, u ∈ ls → canonicalKey u = canonicalKey t →
      u.relevance_score ≤ t.relevance_score := by
  rcases List.mem_filterMap.mp ht with ⟨k, _, hbf⟩
  have h1 := bestForKey_mem_key k ls t hbf
  refine ⟨h1.1, ?_⟩
  intro u hu hku
  exact bestForKey_max k ls t hbf u hu (by rw [hku, h1.2])

lemma mergeSources_covers (ls : List Source) (u : Source) (hu : u ∈ ls) :
    ∃ t, t ∈ mergeSources ls ∧ canonicalKey t = canonicalKey u := by
  have hkmem : canonicalKey u ∈ (ls.map canonicalKey).dedup :=
    List.mem_dedup.mpr (List.mem_map_of_mem canonicalKey hu)
  obtain ⟨t, ht⟩ := bestForKey_exists (canonicalKey u) ls u hu rfl
  exact ⟨t, List.mem_filterMap.mpr ⟨canonicalKey u, hkmem, ht⟩,
    (bestForKey_mem_key _ _ _ ht).2⟩

lemma mergeSources_unique_keys (ls : List Source) :
    (mergeSources ls).Pairwise (fun a b => canonicalKey a ≠ canonicalKey b) := by
  unfold mergeSources
  rw [List.pairwise_filterMap]
  have hnd := List.nodup_dedup (ls.map canonicalKey)
  refine List.Pairwise.imp ?_ hnd
  intro a b hab t hta u hub
  have h1 := bestForKey_mem_key a ls t (Option.mem_def.mp hta)
  have h2 := bestForKey_mem_key b ls u (Option.mem_def.mp hub)
  rw [h1.2, h2.2]
  exact hab

/-! ## Claim theorems -/

/-- C1: a Draft counts as plagiarism-clean iff its completed report has
similarity_score ≤ the configured threshold and ai_score = 0; the Plagiarism
Loop's Polling transition reaches `Clean` exactly on such reports, and the
`turnitin_passed` column of the `conversation_stats` view agrees with the
clean criterion at the concrete threshold 10. -/
theorem clean_criterion_consistency (threshold : ℚ) (r : PlagiarismReport) :
    (isClean threshold r ↔
      r.status = ReportStatus.completed ∧
        r.similarity_score ≤ threshold ∧ r.ai_score = 0) ∧
    (pollTransition threshold r = PlagState.Clean ↔ isClean threshold r) ∧
    (turnitinPassed [r] = true ↔ isClean 10 r) := by
  refine ⟨Iff.rfl, ?_, ?_⟩
  · by_cases hst : r.status = ReportStatus.completed
    · by_cases hcl : isClean threshold r
      · simp [pollTransition, hst, hcl]
      · simp [pollTransition, hst, hcl]
    · have hncl : ¬ isClean threshold r := fun hx => hst hx.1
      simp [pollTransition, hst, hncl]
  · by_cases hst : r.status = ReportStatus.completed
    · by_cases h1 : r.similarity_score ≤ 10 <;> by_cases h2 : r.ai_score = 0 <;>
        simp [turnitinPassed, isClean, hst, h1, h2, List.countP, List.countP.go,
          beq_iff_eq, beq_eq_false_iff_ne]
    · simp [turnitinPassed, isClean, hst, List.countP, List.countP.go]

/-- C2: when every one of the `maxAttempts` submit/revise cycles yields a
completed but unclean report, the Plagiarism Loop ends in `Exhausted` and the
Request still finishes with terminal status `succeeded` carrying a warning
annotation, never with terminal status `failed`. -/
theorem plagiarism_exhaustion_degraded_success (threshold : ℚ)
    (provider : Nat → PlagiarismReport) (maxAttempts : Nat)
    (h : ∀ k, k < maxAttempts → (provider k).status = ReportStatus.completed ∧
      ¬ isClean threshold (provider k)) :
    plagiarismLoop threshold provider maxAttempts = PlagOutcome.Exhausted ∧
    finishAfterPlagiarism (plagiarismLoop threshold provider maxAttempts) =
      { status := RequestStatus.succeeded, warning := true } ∧
    (finishAfterPlagiarism (plagiarismLoop threshold provider maxAttempts)).status ≠
      RequestStatus.failed := by
  have hx : plagiarismLoop threshold provider maxAttempts = PlagOutcome.Exhausted := by
    apply plagLoopRun_exhausted
    intro k hk
    rw [Nat.zero_add]
    exact h k hk
  refine ⟨hx, ?_, ?_⟩
  · rw [hx]
    rfl
  · rw [hx]
    intro hc
    cases hc

/-- Witness for C2: a fake provider that always returns a completed report with
similarity_score 50 against threshold 10 exhausts a 3-attempt loop and the
Request still succeeds with a warning. -/
theorem plagiarism_exhaustion_degraded_success_witness :
    plagiarismLoop 10
      (fun _ => { similarity_score := 50, ai_score := 0,
                  status := ReportStatus.completed }) 3 = PlagOutcome.Exhausted ∧
    finishAfterPlagiarism (plagiarismLoop 10
      (fun _ => { similarity_score := 50, ai_score := 0,
                  status := ReportStatus.completed }) 3) =
      { status := RequestStatus.succeeded, warning := true } ∧
    (finishAfterPlagiarism (plagiarismLoop 10
      (fun _ => { similarity_score := 50, ai_score := 0,
                  status := ReportStatus.completed }) 3)).status ≠
      RequestStatus.failed :=
  plagiarism_exhaustion_degraded_success 10
    (fun _ => { similarity_score := 50, ai_score := 0,
                status := ReportStatus.completed }) 3 (by decide)

/-- C3: the Generation Loop always ends in `Accepted` or `Exhausted` after at
most `maxIter` Drafting/Evaluating cycles, and with an evaluator that scores
every draft 0.0 (against a positive threshold) it ends in `Exhausted` after
exactly `maxIter` cycles. -/
theorem generation_loop_bounded (evalScore : Nat → ℚ) (threshold : ℚ)
    (maxIter : Nat) :
    ((generationLoop evalScore threshold maxIter).1 = GenOutcome.Accepted ∨
      (generationLoop evalScore threshold maxIter).1 = GenOutcome.Exhausted) ∧
    (generationLoop evalScore threshold maxIter).2 ≤ maxIter ∧
    (0 < threshold → (∀ k, evalScore k = 0) →
      generationLoop evalScore threshold maxIter = (GenOutcome.Exhausted, maxIter)) := by
  refine ⟨?_, ?_, ?_⟩
  · cases (generationLoop evalScore threshold maxIter).1 with
    | Accepted => exact Or.inl rfl
    | Exhausted => exact Or.inr rfl
  · have := genLoopGo_le evalScore threshold maxIter 0
    unfold generationLoop
    omega
  · intro hpos hzero
    unfold generationLoop
    rw [genLoopGo_zero_eval evalScore threshold hpos hzero maxIter 0, Nat.zero_add]

/-- Witness for C3: the always-0.0 evaluator against threshold 1 exhausts a
3-cycle budget in exactly 3 cycles. -/
theorem generation_loop_bounded_witness :
    (0 : ℚ) < 1 ∧
    generationLoop (fun _ => 0) 1 3 = (GenOutcome.Exhausted, 3) :=
  ⟨by decide,
    (generation_loop_bounded (fun _ => 0) 1 3).2.2 (by decide) (fun _ => rfl)⟩

/-- C8: every allowed status transition strictly increases the status rank, so
along any sequence of transitions the Request moves monotonically along
pending → running → {succeeded | failed} and never re-enters `pending` after
leaving it. -/
theorem status_monotonic :
    (∀ s t, StatusStep s t → statusRank s < statusRank t) ∧
    (∀ s t, Relation.ReflTransGen StatusStep s t → statusRank s ≤ statusRank t) ∧
    (∀ s t, Relation.ReflTransGen StatusStep s t → s ≠ RequestStatus.pending →
      t ≠ RequestStatus.pending) := by
  have hstep : ∀ s t, StatusStep s t → statusRank s < statusRank t := by
    intro s t h
    cases h <;> decide
  refine ⟨hstep, ?_, ?_⟩
  · intro s t h
    induction h with
    | refl => exact Nat.le_refl _
    | tail _ hbc ih => exact ih.trans (Nat.le_of_lt (hstep _ _ hbc))
  · intro s t h hs
    induction h with
    | refl => exact hs
    | tail _ hbc _ => cases hbc <;> simp

/-- Witness for C8: the transition out of `pending` raises the rank, and a
Request that has started running ends at a non-pending status. -/
theorem status_monotonic_witness :
    statusRank RequestStatus.pending < statusRank RequestStatus.running ∧
    RequestStatus.succeeded ≠ RequestStatus.pending :=
  ⟨status_monotonic.1 _ _ StatusStep.start,
    status_monotonic.2.2 RequestStatus.running RequestStatus.succeeded
      (Relation.ReflTransGen.single StatusStep.finishOk) (by decide)⟩

/-- C4: the Research Fan-out over three providers fails iff every provider
failed; whenever at least one provider succeeds the stage continues, and when
exactly one provider succeeds the returned set is the deduplicated merge of
that provider's raw output alone — a subset of it with pairwise distinct
canonical keys — each failed provider contributing the empty set. -/
theorem research_fanout_result (a b c : Option (List Source)) :
    (researchFanOut [a, b, c] = NodeResult.Fail ↔
      a = none ∧ b = none ∧ c = none) ∧
    ((a.isSome ∨ b.isSome ∨ c.isSome) ↔
      ∃ found, researchFanOut [a, b, c] = NodeResult.Continue found) ∧
    (∀ ls : List Source,
      researchFanOut [some ls, none, none] = NodeResult.Continue (mergeSources ls) ∧
      researchFanOut [none, some ls, none] = NodeResult.Continue (mergeSources ls) ∧
      researchFanOut [none, none, some ls] = NodeResult.Continue (mergeSources ls) ∧
      mergeSources ls ⊆ ls ∧
      (mergeSources ls).Pairwise (fun s t => canonicalKey s ≠ canonicalKey t)) := by
  refine ⟨?_, ?_, ?_⟩
  · cases a <;> cases b <;> cases c <;> simp [researchFanOut]
  · cases a <;> cases b <;> cases c <;> simp [researchFanOut]
  · intro ls
    refine ⟨?_, ?_, ?_, ?_, mergeSources_unique_keys ls⟩
    · simp [researchFanOut, providerContribution]
    · simp [researchFanOut, providerContribution]
    · simp [researchFanOut, providerContribution]
    · intro t ht
      exact (mem_mergeSources ls t ht).1

/-- C5: every source in the merged set comes from the input, carries the
maximal relevance_score observed for its canonical URL/DOI, every input key is
represented, and no two merged sources share a canonical key. -/
theorem merge_coalesces_max_relevance (ls : List Source) :
    (∀ t, t ∈ mergeSources ls → t ∈ ls ∧
      ∀ u, u ∈ ls → canonicalKey u = canonicalKey t →
        u.relevance_score ≤ t.relevance_score) ∧
    (∀ u, u ∈ ls → ∃ t, t ∈ mergeSources ls ∧ canonicalKey t = canonicalKey u) ∧
    (mergeSources ls).Pairwise (fun a b => canonicalKey a ≠ canonicalKey b) :=
  ⟨fun t ht => mem_mergeSources ls t ht,
    fun u hu => mergeSources_covers ls u hu,
    mergeSources_unique_keys ls⟩

/-- Two concrete sources sharing a canonical URL with different relevance
scores, used to exercise the merge. -/
def sampleLowRel : Source :=
  { url := "https://a.org/p1", title := "P1", author := "Lee", year := some 2020,
    abstract := none, doi := none, citation := none, provider := "perplexity",
    credibility_score := 1, relevance_score := 0, verified := false }

def sampleHighRel : Source :=
  { sampleLowRel with provider := "claude", relevance_score := 1 }

/-- Witness for C5: merging two sources with the same canonical URL keeps the
one with the higher relevance_score. -/
theorem merge_coalesces_max_relevance_witness :
    sampleLowRel.relevance_score ≤ sampleHighRel.relevance_score ∧
    sampleHighRel ∈ mergeSources [sampleLowRel, sampleHighRel] :=
  ⟨((merge_coalesces_max_relevance [sampleLowRel, sampleHighRel]).1
      sampleHighRel (by decide)).2 sampleLowRel (by decide) (by decide),
    by decide⟩

/-- C6: the Source Filter is pure and idempotent — a second application to its
own output is the identity, and equal inputs give equal outputs. -/
theorem source_filter_pure (cfg : FilterConfig) (ls : List Source) :
    sourceFilter cfg (sourceFilter cfg ls) = sourceFilter cfg ls ∧
    (∀ ls', ls = ls' → sourceFilter cfg ls = sourceFilter cfg ls') := by
  constructor
  · show List.map markVerified (List.filter (passesFilter cfg)
        (List.map markVerified (List.filter (passesFilter cfg) ls))) =
      List.map markVerified (List.filter (passesFilter cfg) ls)
    rw [List.filter_map,
      show (passesFilter cfg ∘ markVerified) = passesFilter cfg from
        funext fun s => rfl,
      List.filter_filter]
    simp only [Bool.and_self]
    rw [List.map_map,
      show (markVerified ∘ markVerified) = markVerified from funext fun s => rfl]
  · intro ls' h
    rw [h]

/-- A concrete Source Filter configuration for the witnesses. -/
def sampleFilterCfg : FilterConfig :=
  { min_credibility := 1, source_age_limit_years := 10, current_year := 2025 }

/-- Witness for C6: a concrete run on the two sample sources, applied twice,
equals the single run. -/
theorem source_filter_pure_witness :
    sourceFilter sampleFilterCfg
      (sourceFilter sampleFilterCfg [sampleLowRel, sampleHighRel]) =
    sourceFilter sampleFilterCfg [sampleLowRel, sampleHighRel] :=
  (source_filter_pure sampleFilterCfg [sampleLowRel, sampleHighRel]).1

/-- C7: appending a draft preserves the versions-equal-position-plus-one
invariant, grows the sequence by exactly one, leaves every existing entry
unchanged, and the revision lands at the end with version `length + 1`. -/
theorem drafts_append_only (st : WorkflowState) (content : String)
    (wordCount citationCount : Nat) (hinv : draftsVersionsOk st.drafts) :
    draftsVersionsOk (appendDraft st content wordCount citationCount).drafts ∧
    (appendDraft st content wordCount citationCount).drafts.length =
      st.drafts.length + 1 ∧
    (∀ i, i < st.drafts.length →
      (appendDraft st content wordCount citationCount).drafts[i]? =
        st.drafts[i]?) ∧
    (appendDraft st content wordCount citationCount).drafts[st.drafts.length]? =
      some (nextDraft st content wordCount citationCount) := by
  have happ : (appendDraft st content wordCount citationCount).drafts =
      st.drafts ++ [nextDraft st content wordCount citationCount] := rfl
  refine ⟨?_, by simp [appendDraft], ?_, ?_⟩
  · intro i d h
    rw [happ, List.getElem?_append] at h
    split at h
    · exact hinv i d h
    · rename_i hge
      rcases Nat.eq_zero_or_pos (i - st.drafts.length) with h0 | h1
      · rw [h0] at h
        simp only [List.getElem?_cons_zero, Option.some.injEq] at h
        rw [← h]
        have hieq : i = st.drafts.length := by omega
        rw [hieq]
        rfl
      · have hnone :
            ([nextDraft st content wordCount citationCount] :
              List Draft)[i - st.drafts.length]? = none := by
          apply List.getElem?_eq_none
          simp only [List.length_singleton]
          exact h1
        rw [hnone] at h
        cases h
  · intro i hi
    rw [happ, List.getElem?_append, if_pos hi]
  · rw [happ, List.getElem?_append_right (Nat.le_refl _), Nat.sub_self]
    rfl

/-- The fresh WorkflowState of a run that has produced nothing yet. -/
def emptyWorkflowState : WorkflowState :=
  { outline := none, sources := [], drafts := [], plagiarism_reports := [] }

/-- Witness for C7: appending the first draft to an empty run yields a
one-element sequence whose entry carries version 1. -/
theorem drafts_append_only_witness :
    (appendDraft emptyWorkflowState "intro" 120 2).drafts.length = 0 + 1 ∧
    (appendDraft emptyWorkflowState "intro" 120 2).drafts[0]? =
      some (nextDraft emptyWorkflowState "intro" 120 2) :=
  have h := drafts_append_only emptyWorkflowState "intro" 120 2
    (by intro i d hd; simp [emptyWorkflowState] at hd)
  ⟨h.2.1, h.2.2.2⟩

/-- C9 counterexample: a file whose name is `pdf` — no dot, hence no text
after a last dot — is forwarded by the handler, because the JavaScript
`split('.').pop()` of a dotless name is the whole name and `'.' + 'pdf'` is an
allowed type, while the claim's reading of the extension admits no allowed
extension for a dotless name and so demands a 400 rejection. -/
theorem upload_dotless_name_counterexample :
    uploadHandler (some { name := "pdf".data, size := 1 }) = UploadOutcome.forward ∧
    claimFileExtension "pdf".data ∉ allowedTypes ∧
    fileExtension "pdf".data ∈ allowedTypes := by decide

/-- C9 (amended): the handler forwards a file to the backend iff a file is
present, its computed extension — a dot followed by the lowercased final
dot-separated segment of the name, which is the text after the last dot when
the name contains a dot and the whole name otherwise — is one of .pdf, .docx,
.txt, .md, and its size is at most 50*1024*1024 bytes; in every other case it
returns HTTP 400 without forwarding. -/
theorem upload_validation (file : Option UploadFile) :
    (uploadHandler file = UploadOutcome.forward ↔
      ∃ f, file = some f ∧ fileExtension f.name ∈ allowedTypes ∧
        f.size ≤ maxUploadSize) ∧
    ((∃ msg, uploadHandler file = UploadOutcome.reject400 msg) ↔
      (file = none ∨ ∃ f, file = some f ∧
        (fileExtension f.name ∉ allowedTypes ∨ maxUploadSize < f.size))) := by
  cases file with
  | none => simp [uploadHandler]
  | some f =>
    by_cases hext : fileExtension f.name ∈ allowedTypes
    · by_cases hsz : maxUploadSize < f.size
      · simp [uploadHandler, hext, hsz, Nat.not_le_of_lt hsz]
      · simp [uploadHandler, hext, hsz, Nat.le_of_not_lt hsz]
    · simp [uploadHandler, hext]

/-- C10: a body without a truthy `prompt` (absent or empty) is rejected with
HTTP 400 and the message "Prompt is required", independently of the backend —
the backend is never contacted — while a body with a non-empty prompt is
forwarded and the proxied result carries the backend's own status code, with
the error message present exactly when the backend response is not ok. -/
theorem write_validation (p : String) (r : List (String × String))
    (b b' : BackendResponse) (hp : p ≠ "") :
    writeHandler { prompt := none, rest := r } b =
      WriteOutcome.reject400 "Prompt is required" ∧
    writeHandler { prompt := some "", rest := r } b =
      WriteOutcome.reject400 "Prompt is required" ∧
    writeHandler { prompt := none, rest := r } b =
      writeHandler { prompt := none, rest := r } b' ∧
    writeHandler { prompt := some "", rest := r } b =
      writeHandler { prompt := some "", rest := r } b' ∧
    writeHandler { prompt := some p, rest := r } b =
      WriteOutcome.proxied b.status
        (if responseOk b.status then none else some (writeErrMsg b.detail)) := by
  have ht : promptTruthy (some p) = true := by
    simp [promptTruthy, hp]
  refine ⟨rfl, rfl, rfl, rfl, ?_⟩
  unfold writeHandler
  rw [show ({ prompt := some p, rest := r } : WriteBody).prompt = some p from rfl, ht,
    if_pos rfl]
  by_cases hok : responseOk b.status = true
  · rw [if_pos hok, if_pos hok]
  · rw [if_neg hok, if_neg hok]

/-- Witness for C10: a missing prompt is rejected; a real prompt against a
backend 500 with detail "boom" is proxied as status 500 with error "boom". -/
theorem write_validation_witness :
    writeHandler { prompt := none, rest := [] }
      { status := 500, detail := some "boom" } =
      WriteOutcome.reject400 "Prompt is required" ∧
    writeHandler { prompt := some "Write an essay", rest := [] }
      { status := 500, detail := some "boom" } =
      WriteOutcome.proxied 500 (some "boom") :=
  have h := write_validation "Write an essay" []
    { status := 500, detail := some "boom" }
    { status := 404, detail := none } (by decide)
  ⟨h.1, by rw [h.2.2.2.2]; decide⟩

end HandyWriterz
